import Mathlib

/-!
# Verification of the layered configuration bag (`config_bag.rs`)

Shallow embedding of `src/rust-runtime/aws-smithy-runtime-api/src/config_bag.rs`.

The Rust code stores heterogeneous values in a `PropertyBag` keyed by the
`TypeId` of the stored type.  We model the type universe by a key type `K`
(one key per stored Rust type) and a value type `V`.  Because the point-lookup
API (`put`/`get`/`unset` at type `T`) and the accumulating API
(`store`/`load`, which operate on the distinct map entry at type `Vec<T>`)
never collide in the `PropertyBag` (distinct `TypeId`s), a `Layer` carries two
independent partial maps: `props` for the `Value<T>` entries and `storeProps`
for the `Value<Vec<T>>` entries.
-/

namespace ConfigBagModel

/-- Rust `enum Value<T> { Set(T), ExplicitlyUnset }` (config_bag.rs). -/
inductive Value (α : Type) : Type where
  | set (v : α) : Value α
  | explicitlyUnset : Value α
deriving DecidableEq, Repr

/-- Rust `struct Layer { name: &'static str, props: PropertyBag }`.
`props k` is the entry stored under the type keyed by `k` (i.e. `Value<T>`),
`storeProps k` the entry stored under `Vec` of that type (i.e. `Value<Vec<T>>`). -/
structure Layer (K V : Type) : Type where
  name : String
  props : K → Option (Value V)
  storeProps : K → Option (Value (List V))

/-- Rust `struct ConfigBag { head: Layer, tail: Option<FrozenConfigBag> }`.
A `FrozenConfigBag` is `Arc<ConfigBag>`; sharing is by-value here, so the
tail is just an optional `ConfigBag`. -/
inductive ConfigBag (K V : Type) : Type where
  | mk (head : Layer K V) (tail : Option (ConfigBag K V)) : ConfigBag K V

namespace ConfigBag

variable {K V : Type}

/-- Head layer of a bag. -/
def head : ConfigBag K V → Layer K V
  | .mk h _ => h

/-- Frozen predecessor chain of a bag (`tail` field). -/
def tail : ConfigBag K V → Option (ConfigBag K V)
  | .mk _ t => t

/-- A layer with no entries, with the given diagnostic name
(`Layer { name, props: PropertyBag::new() }`). -/
def emptyLayer (name : String) : Layer K V :=
  { name := name, props := fun _ => none, storeProps := fun _ => none }

/-- Rust `ConfigBag::base()`: head layer named "base", no tail. -/
def base : ConfigBag K V :=
  .mk (emptyLayer "base") none

variable [DecidableEq K]

/-- Rust `ConfigBag::put::<T>(value)`:
`self.head.props.insert(Value::Set(value))` — overwrites the head layer's
entry for `T` only. -/
def put (b : ConfigBag K V) (k : K) (v : V) : ConfigBag K V :=
  .mk { b.head with props := fun k' => if k' = k then some (.set v) else b.head.props k' }
    b.tail

/-- Rust `ConfigBag::unset::<T>()` instantiated at a point type `T`:
`self.head.props.insert(Value::<T>::ExplicitlyUnset)`. -/
def unsetPoint (b : ConfigBag K V) (k : K) : ConfigBag K V :=
  .mk { b.head with props := fun k' => if k' = k then some .explicitlyUnset else b.head.props k' }
    b.tail

/-- Overwrite the head layer's `Value<Vec<T>>` entry (the effect of
`self.put::<Vec<T>>(..)` / `PropertyBag::insert` on the `Vec<T>` slot). -/
def putStoreEntry (b : ConfigBag K V) (k : K) (e : Value (List V)) : ConfigBag K V :=
  .mk { b.head with storeProps := fun k' => if k' = k then some e else b.head.storeProps k' }
    b.tail

/-- Rust `ConfigBag::store::<T>(t)`: if the head layer's `Value<Vec<T>>` entry
is `Set(existing)`, push `t` onto it and re-insert; otherwise insert
`Set(vec![t])` (a removed `ExplicitlyUnset` marker is discarded). -/
def store (b : ConfigBag K V) (k : K) (v : V) : ConfigBag K V :=
  match b.head.storeProps k with
  | some (.set existing) => b.putStoreEntry k (.set (existing ++ [v]))
  | _ => b.putStoreEntry k (.set [v])

/-- Rust `ConfigBag::unset::<Vec<T>>()` (as called from `store_or_unset`):
inserts `ExplicitlyUnset` into the head layer's `Vec<T>` slot. -/
def unsetStore (b : ConfigBag K V) (k : K) : ConfigBag K V :=
  b.putStoreEntry k .explicitlyUnset

/-- Rust `ConfigBag::store_or_unset::<T>(t)`:
`Some(t) => self.store(t), None => self.unset::<Vec<T>>()`. -/
def storeOrUnset (b : ConfigBag K V) (k : K) : Option V → ConfigBag K V
  | some v => b.store k v
  | none => b.unsetStore k

end ConfigBag

/-- Rust `enum SourceInfo { Set { layer, value }, Unset { layer }, Inherit { layer } }`.
The source records `value` as its `Debug` rendering (a `String`); we keep the
value itself. -/
inductive SourceInfo (V : Type) : Type where
  | set (layer : String) (value : V) : SourceInfo V
  | unset (layer : String) : SourceInfo V
  | inherit (layer : String) : SourceInfo V
deriving DecidableEq, Repr

namespace ConfigBag

variable {K V : Type}

/-- Rust `ConfigBag::sourced_get::<T>(source_trail)`: recurses into the tail
first (`inner_item`), then matches the head layer's entry; the head layer's
`SourceInfo` record is pushed onto the trail after the recursive call returns.
Returns the resolved value together with the final trail (the mutable
`Vec<SourceInfo>` is modelled by returning the list of pushed records). -/
def sourcedGet : ConfigBag K V → K → Option V × List (SourceInfo V)
  | .mk h t, k =>
    let inner : Option V × List (SourceInfo V) :=
      match t with
      | none => (none, [])
      | some tb => sourcedGet tb k
    match h.props k with
    | some .explicitlyUnset => (none, inner.2 ++ [.unset h.name])
    | some (.set v) => (some v, inner.2 ++ [.set h.name v])
    | none => (inner.1, inner.2 ++ [.inherit h.name])

/-- Rust `ConfigBag::get::<T>()`: runs `sourced_get` with a fresh trail and
returns the resolved value (the trail is only printed). -/
def get (b : ConfigBag K V) (k : K) : Option V :=
  (b.sourcedGet k).1

/-- The point-lookup algorithm as the spec words it (§4.1): walk from the head
layer toward the oldest layer; the first layer holding any entry for the type
determines the result (`Set` yields the value, `ExplicitlyUnset` absence); a
layer with no entry is transparent; if no layer has an entry the result is
absence.  Used to compare `get` against the spec. -/
def specFirstOpinionGet : ConfigBag K V → K → Option V
  | .mk h t, k =>
    match h.props k with
    | some (.set v) => some v
    | some .explicitlyUnset => none
    | none =>
      match t with
      | none => none
      | some tb => specFirstOpinionGet tb k

/-- Induction principle for the bag chain: a bag is its head layer plus an
optional frozen predecessor chain. -/
theorem inductionOn {motive : ConfigBag K V → Prop} (b : ConfigBag K V)
    (baseCase : ∀ h : Layer K V, motive (.mk h none))
    (consCase : ∀ (h : Layer K V) (t : ConfigBag K V), motive t → motive (.mk h (some t))) :
    motive b :=
  match b with
  | .mk h none => baseCase h
  | .mk h (some t) => consCase h t (inductionOn t baseCase consCase)

/-- Rust `ConfigBag::load::<T>()`, generic over the `Storable` policy:
`dflt` is `ContainerType::default()` and `mg` is `T::merge`.  The code first
loads the tail's accumulator (`unwrap_or_default` when there is no tail), then,
if the head layer's `Vec<T>` entry is `Set(root)`, folds every element of
`root` into the accumulator in order; any other entry (absent or
`ExplicitlyUnset`) leaves the accumulator as the tail produced it. -/
def loadWith {C : Type} (dflt : C) (mg : C → V → C) : ConfigBag K V → K → C
  | .mk h t, k =>
    let item : C :=
      match t with
      | none => dflt
      | some tb => loadWith dflt mg tb k
    match h.storeProps k with
    | some (.set root) => root.foldl mg item
    | _ => item

/-- `load` at an append-policy type (`storable!(T, mode: append)`):
container `Vec<T>` with default `[]`, merge pushes the new item. -/
def loadAppend (b : ConfigBag K V) (k : K) : List V :=
  loadWith [] (fun acc v => acc ++ [v]) b k

/-- `load` at a replace-policy type (`storable!(T, mode: replace)`):
container `Option<T>` with default `None`, merge keeps only the new item. -/
def loadReplace (b : ConfigBag K V) (k : K) : Option V :=
  loadWith none (fun _ v => some v) b k

/-- The layers of a chain listed oldest first (the bag's head layer last). -/
def layersOldestFirst : ConfigBag K V → List (Layer K V)
  | .mk h none => [h]
  | .mk h (some t) => layersOldestFirst t ++ [h]

/-- The values a single layer holds in its `Vec<T>` accumulator for key `k`,
in store-call order (empty when the entry is absent or `ExplicitlyUnset`). -/
def storedInLayer (L : Layer K V) (k : K) : List V :=
  match L.storeProps k with
  | some (.set l) => l
  | _ => []

/-- All values stored for `k` across the whole chain, oldest layer first and,
within each layer, in store-call order — the spec's description of the global
append ordering. -/
def allStoredOldestFirst (b : ConfigBag K V) (k : K) : List V :=
  (b.layersOldestFirst.map (fun L => storedInLayer L k)).flatten

/-- Stack the given layers on top of a bag (the list's head becomes the
newest layer) — the shape of any chain containing a given layer somewhere in
its middle. -/
def stackLayers (us : List (Layer K V)) (b : ConfigBag K V) : ConfigBag K V :=
  us.foldr (fun L acc => .mk L (some acc)) b

end ConfigBag

/-- One head-layer mutation, as a mutator passed to `with_fn` may perform
them (`put`/`unset`/`store`/`store_or_unset` on the new head only). -/
inductive Mutation (K V : Type) : Type where
  | put (k : K) (v : V) : Mutation K V
  | unsetPoint (k : K) : Mutation K V
  | store (k : K) (v : V) : Mutation K V
  | storeOrUnset (k : K) (v : Option V) : Mutation K V

namespace ConfigBag

variable {K V : Type} [DecidableEq K]

/-- Run one mutation against the bag. -/
def applyMutation (b : ConfigBag K V) : Mutation K V → ConfigBag K V
  | .put k v => b.put k v
  | .unsetPoint k => b.unsetPoint k
  | .store k v => b.store k v
  | .storeOrUnset k v => b.storeOrUnset k v

/-- Run a sequence of mutations (the body of a `with_fn` mutator) in order. -/
def applyMutations (b : ConfigBag K V) (ms : List (Mutation K V)) : ConfigBag K V :=
  ms.foldl applyMutation b

/-- Rust `FrozenConfigBag::with_fn(name, next)`: builds a fresh layer whose
tail is (a clone of the `Arc` of) the frozen bag, then applies the mutator to
the new bag.  A frozen bag's contents are the wrapped `ConfigBag`. -/
def frozenWithFn (F : ConfigBag K V) (name : String) (ms : List (Mutation K V)) :
    ConfigBag K V :=
  applyMutations (.mk (emptyLayer name) (some F)) ms

/-- Rust `FrozenConfigBag::add_layer(name)`: `with_fn(name, no_op)`. -/
def frozenAddLayer (F : ConfigBag K V) (name : String) : ConfigBag K V :=
  frozenWithFn F name []

/-- Rust `ConfigBag::add_layer(self, name)`: `self.freeze().add_layer(name)`
(freezing does not change the wrapped contents). -/
def addLayer (b : ConfigBag K V) (name : String) : ConfigBag K V :=
  frozenAddLayer b name

end ConfigBag

/-- A frozen bag handle together with the strong reference count of its
`Arc<ConfigBag>` cell.  Models `std::sync::Arc` (standard library, not
repository code): `clone` increments the shared strong count, and
`Arc::try_unwrap` returns the wrapped value exactly when the count is 1. -/
structure FrozenHandle (K V : Type) : Type where
  bag : ConfigBag K V
  strong : Nat

namespace FrozenHandle

variable {K V : Type}

/-- Rust `ConfigBag::freeze()` / `FrozenConfigBag::from(bag)`:
`Arc::new(bag)` starts with a strong count of 1. -/
def freeze (b : ConfigBag K V) : FrozenHandle K V :=
  ⟨b, 1⟩

/-- `FrozenConfigBag::clone()`: the shared strong count, as observed through
every handle of the cell, goes up by one. -/
def clone (f : FrozenHandle K V) : FrozenHandle K V :=
  ⟨f.bag, f.strong + 1⟩

/-- Rust `FrozenConfigBag::try_modify()`: `Arc::try_unwrap(self.0).ok()` —
yields the wrapped `ConfigBag` exactly when this is the sole outstanding
owner (strong count 1), and `None` otherwise. -/
def tryModify (f : FrozenHandle K V) : Option (ConfigBag K V) :=
  if f.strong = 1 then some f.bag else none

end FrozenHandle

/-- The key universe of the `persist_trait` test: one key per stored Rust
type (`A` and `B`). -/
inductive CKey : Type where
  | a : CKey
  | b : CKey
deriving DecidableEq, Repr

/-- The value universe of the `persist_trait` test: `A(bool)` and
`B(String)` newtype payloads. -/
inductive CVal : Type where
  | boolV (x : Bool) : CVal
  | stringV (s : String) : CVal
deriving DecidableEq, Repr

/-- Rust test `struct MyConfig { a: bool, b: String }`. -/
structure MyConfig : Type where
  a : Bool
  b : String
deriving DecidableEq, Repr

/-- The panic message of Rust `Option::unwrap()` on `None`. -/
def rustUnwrapPanicMessage : String :=
  "called `Option::unwrap()` on a `None` value"

/-- Rust `Option::unwrap()`: the value on `Some`, a panic (modelled as an
abort outcome, distinct from any ordinary return) on `None`. -/
def optionUnwrap {α : Type} : Option α → Except String α
  | some v => .ok v
  | none => .error rustUnwrapPanicMessage

namespace MyConfig

/-- `Persist::persist` of the test `impl Persist for MyConfig`:
`layer.put(A(self.a)); layer.put(B(self.b.clone()))`. -/
def persistInto (c : MyConfig) (bag : ConfigBag CKey CVal) : ConfigBag CKey CVal :=
  (bag.put .a (.boolV c.a)).put .b (.stringV c.b)

/-- `Persist::layer_name` of the test impl. -/
def layerName : String := "my_config"

/-- Rust `FrozenConfigBag::with(layer)` at the test's `MyConfig`:
`with_fn(layer.layer_name(), |bag| layer.persist(bag))`.
(`ConfigBag::with` freezes first, which leaves the contents unchanged.) -/
def withConfig (F : ConfigBag CKey CVal) (c : MyConfig) : ConfigBag CKey CVal :=
  c.persistInto (.mk (ConfigBag.emptyLayer layerName) (some F))

/-- `Load::load` of the test `impl Load for MyConfig`:
`Some(MyConfig { a: bag.get::<A>().unwrap().0, b: bag.get::<B>().unwrap().0.clone() })`.
The `unwrap` panics are the `Except.error` outcome.  The final catch-all arm
is unreachable from `persist`: the Rust type-indexed `PropertyBag` guarantees
the entry at `A`'s slot is an `A` and the entry at `B`'s slot is a `B`, which
the two-key model cannot express per-key. -/
def loadFrom (bag : ConfigBag CKey CVal) : Except String (Option MyConfig) := do
  let va ← optionUnwrap (bag.get CKey.a)
  let vb ← optionUnwrap (bag.get CKey.b)
  match va, vb with
  | .boolV x, .stringV s => pure (some ⟨x, s⟩)
  | _, _ => pure none

end MyConfig

/-- The provenance record one layer contributes for key `k` during
`sourced_get`: `Set(name, value)` when the entry is `Set`, `Unset(name)` when
`ExplicitlyUnset`, `Inherit(name)` when the layer has no entry. -/
def layerRecord {K V : Type} (L : Layer K V) (k : K) : SourceInfo V :=
  match L.props k with
  | some (.set v) => .set L.name v
  | some .explicitlyUnset => .unset L.name
  | none => .inherit L.name

/-- The provenance scenario of the spec: the value 1 is put in layer "a",
layer "b" has no entry, and layer "c" (the head) explicitly unsets the type. -/
def provenanceScenario : ConfigBag Unit Nat :=
  (ConfigBag.frozenAddLayer
      (ConfigBag.frozenAddLayer
        ((ConfigBag.mk (ConfigBag.emptyLayer "a") none).put () 1) "b")
      "c").unsetPoint ()

/-- A head layer holding an `ExplicitlyUnset` marker both for the point entry
and for the accumulator entry of the single key. -/
def markedLayer : Layer Unit String :=
  { name := "next"
    props := fun _ => some .explicitlyUnset
    storeProps := fun _ => some .explicitlyUnset }

/-- An older one-layer bag holding the stored value "old" and the point value
"old". -/
def olderBag : ConfigBag Unit String :=
  ((ConfigBag.base.store () "old").put () "old" : ConfigBag Unit String)

/-- A newer layer holding the stored value "new" for the single key. -/
def upperLayer : Layer Unit String :=
  { name := "top"
    props := fun _ => none
    storeProps := fun _ => some (.set ["new"]) }

end ConfigBagModel

namespace ConfigBagModel

open ConfigBag

/-- C1. Point-lookup shadowing: `get` (via `sourced_get`) resolves exactly as
the spec's head-to-oldest walk — the first layer holding any entry for the
type determines the result, a `Set` entry yields its value, an
`ExplicitlyUnset` entry yields absence, an entry-less layer is transparent,
and a chain where no layer mentions the type yields absence. -/
theorem point_lookup_shadowing {K V : Type} (b : ConfigBag K V) (k : K) :
    b.get k = ConfigBag.specFirstOpinionGet b k := by
  induction b using ConfigBag.inductionOn with
  | baseCase h =>
    simp only [ConfigBag.get, ConfigBag.sourcedGet, ConfigBag.specFirstOpinionGet]
    cases h.props k with
    | none => rfl
    | some e => cases e <;> rfl
  | consCase h tb ih =>
    simp only [ConfigBag.get, ConfigBag.sourcedGet, ConfigBag.specFirstOpinionGet] at ih ⊢
    cases h.props k with
    | none => simpa using ih
    | some e => cases e <;> rfl

/-- Every single head-layer mutation leaves the bag's tail untouched. -/
theorem applyMutation_tail {K V : Type} [DecidableEq K] (b : ConfigBag K V)
    (m : Mutation K V) : (b.applyMutation m).tail = b.tail := by
  cases b with
  | mk h t =>
    cases m with
    | put k v => rfl
    | unsetPoint k => rfl
    | store k v =>
      simp only [ConfigBag.applyMutation, ConfigBag.store]
      cases hk : (ConfigBag.head (.mk h t)).storeProps k with
      | none => rfl
      | some e => cases e <;> rfl
    | storeOrUnset k v =>
      cases v with
      | none => rfl
      | some v =>
        simp only [ConfigBag.applyMutation, ConfigBag.storeOrUnset, ConfigBag.store]
        cases hk : (ConfigBag.head (.mk h t)).storeProps k with
        | none => rfl
        | some e => cases e <;> rfl

/-- A whole mutator body leaves the bag's tail untouched. -/
theorem applyMutations_tail {K V : Type} [DecidableEq K] (b : ConfigBag K V)
    (ms : List (Mutation K V)) : (b.applyMutations ms).tail = b.tail := by
  induction ms generalizing b with
  | nil => rfl
  | cons m ms ih =>
    simp only [ConfigBag.applyMutations, List.foldl_cons] at ih ⊢
    rw [ih, applyMutation_tail]

/-- C2. Isolation under freeze: deriving a new mutable bag from a frozen bag
`F` via `with_fn` (hence also `add_layer`) and applying any sequence of
`put`/`unset`/`store`/`store_or_unset` mutations leaves the derived bag's
frozen predecessor exactly `F`, so every point lookup answered by `F` is
unchanged by the derivation and the mutations. -/
theorem isolation_under_freeze {K V : Type} [DecidableEq K] (F : ConfigBag K V)
    (name : String) (ms : List (Mutation K V)) :
    (ConfigBag.frozenWithFn F name ms).tail = some F ∧
    ∀ k : K, ((ConfigBag.frozenWithFn F name ms).tail.map fun t => t.get k)
        = some (F.get k) := by
  have ht : (ConfigBag.frozenWithFn F name ms).tail = some F := by
    unfold ConfigBag.frozenWithFn
    rw [applyMutations_tail]
    rfl
  exact ⟨ht, fun k => by rw [ht]; rfl⟩

/-- Folding the append-policy merge function over a list appends that list to
the accumulator. -/
theorem foldl_append_merge {V : Type} (l : List V) (init : List V) :
    l.foldl (fun acc v => acc ++ [v]) init = init ++ l := by
  induction l generalizing init with
  | nil => simp
  | cons a l ih => rw [List.foldl_cons, ih]; simp

/-- `getLast?` of a nonempty list is always `some`. -/
theorem getLast?_cons_isSome {V : Type} (y : V) (ys : List V) :
    ∃ z, (y :: ys).getLast? = some z := by
  induction ys generalizing y with
  | nil => exact ⟨y, rfl⟩
  | cons b t ih => rw [List.getLast?_cons_cons]; exact ih b

/-- Folding the replace-policy merge function over a list keeps the list's
last element, falling back to the accumulator for an empty list. -/
theorem foldl_replace_merge {V : Type} (l : List V) (init : Option V) :
    l.foldl (fun _ v => some v) init
      = match l.getLast? with
        | some y => some y
        | none => init := by
  induction l generalizing init with
  | nil => simp
  | cons a l ih =>
    rw [List.foldl_cons, ih]
    cases l with
    | nil => simp
    | cons b t =>
      obtain ⟨z, hz⟩ := getLast?_cons_isSome b t
      rw [List.getLast?_cons_cons, hz]

/-- `load` at an append-policy type returns all values stored across the
chain, oldest layer first, in store order within each layer. -/
theorem loadAppend_eq_allStored {K V : Type} (b : ConfigBag K V) (k : K) :
    b.loadAppend k = b.allStoredOldestFirst k := by
  induction b using ConfigBag.inductionOn with
  | baseCase h =>
    simp only [ConfigBag.loadAppend, ConfigBag.loadWith, ConfigBag.allStoredOldestFirst,
      ConfigBag.layersOldestFirst, List.map_cons, List.map_nil, List.flatten,
      ConfigBag.storedInLayer]
    cases h.storeProps k with
    | none => rfl
    | some e =>
      cases e with
      | set root => dsimp only; rw [foldl_append_merge]; simp
      | explicitlyUnset => rfl
  | consCase h tb ih =>
    simp only [ConfigBag.loadAppend, ConfigBag.loadWith, ConfigBag.allStoredOldestFirst,
      ConfigBag.layersOldestFirst, List.map_append, List.map_cons, List.map_nil,
      List.flatten_append, List.flatten, ConfigBag.storedInLayer] at ih ⊢
    cases h.storeProps k with
    | none => simp [ih]
    | some e =>
      cases e with
      | set root => dsimp only; rw [foldl_append_merge, ih]; simp
      | explicitlyUnset => simp [ih]

/-- C3. Append-policy ordering: `load` at an append-policy type yields the
global oldest-layer-first ordering (store-call order within each layer, as
`store` appends to the head layer's accumulator), and the concrete scenario
store "1", store "2", freeze/add layer, store "3" loads exactly
["1", "2", "3"]. -/
theorem append_policy_ordering :
    (∀ (K V : Type) (b : ConfigBag K V) (k : K),
        b.loadAppend k = b.allStoredOldestFirst k) ∧
    (∀ (K V : Type) [DecidableEq K] (b : ConfigBag K V) (k : K) (v : V),
        ConfigBag.storedInLayer (b.store k v).head k
          = ConfigBag.storedInLayer b.head k ++ [v]) ∧
    (((((ConfigBag.base : ConfigBag Unit String).store () "1").store ()
          "2").addLayer "next").store () "3").loadAppend () = ["1", "2", "3"] := by
  refine ⟨fun K V b k => loadAppend_eq_allStored b k, ?_, rfl⟩
  intro K V _ b k v
  cases b with
  | mk h t =>
    simp only [ConfigBag.store]
    cases hk : (ConfigBag.head (.mk h t)).storeProps k with
    | none =>
      simp only [ConfigBag.head] at hk
      simp [ConfigBag.putStoreEntry, ConfigBag.storedInLayer, ConfigBag.head, hk]
    | some e =>
      simp only [ConfigBag.head] at hk
      cases e with
      | set existing =>
        simp [ConfigBag.putStoreEntry, ConfigBag.storedInLayer, ConfigBag.head, hk]
      | explicitlyUnset =>
        simp [ConfigBag.putStoreEntry, ConfigBag.storedInLayer, ConfigBag.head, hk]

/-- `load` at a replace-policy type returns the globally last stored value. -/
theorem loadReplace_eq_getLast {K V : Type} (b : ConfigBag K V) (k : K) :
    b.loadReplace k = (b.allStoredOldestFirst k).getLast? := by
  have key : ∀ b : ConfigBag K V, b.loadReplace k
      = match (b.loadAppend k).getLast? with
        | some y => some y
        | none => none := by
    intro b
    induction b using ConfigBag.inductionOn with
    | baseCase h =>
      simp only [ConfigBag.loadReplace, ConfigBag.loadAppend, ConfigBag.loadWith]
      cases h.storeProps k with
      | none => rfl
      | some e =>
        cases e with
        | set root => dsimp only; rw [foldl_replace_merge, foldl_append_merge]; simp
        | explicitlyUnset => rfl
    | consCase h tb ih =>
      simp only [ConfigBag.loadReplace, ConfigBag.loadAppend, ConfigBag.loadWith] at ih ⊢
      cases h.storeProps k with
      | none => exact ih
      | some e =>
        cases e with
        | set root =>
          dsimp only
          rw [foldl_replace_merge, foldl_append_merge, ih]
          cases hr : root.getLast? with
          | none =>
            cases root with
            | nil => simp
            | cons x xs => obtain ⟨z, hz⟩ := getLast?_cons_isSome x xs; rw [hz] at hr; cases hr
          | some y =>
            cases root with
            | nil => cases hr
            | cons x xs =>
              rw [List.getLast?_append_cons, hr]
        | explicitlyUnset => exact ih
  rw [key b, loadAppend_eq_allStored b k]
  cases (b.allStoredOldestFirst k).getLast? <;> rfl

/-- C4. Replace-policy latest-wins: `load` at a replace-policy type returns
exactly the most recently stored value found anywhere in the chain (the last
element of the oldest-first global ordering), and the concrete scenario
store "X" in an older layer, store "Y" in a newer layer loads `some "Y"`. -/
theorem replace_policy_latest_wins :
    (∀ (K V : Type) (b : ConfigBag K V) (k : K),
        b.loadReplace k = (b.allStoredOldestFirst k).getLast?) ∧
    (((((ConfigBag.base : ConfigBag Unit String).store () "X").addLayer
        "next").store () "Y").loadReplace () = some "Y") :=
  ⟨fun _ _ b k => loadReplace_eq_getLast b k, rfl⟩

/-- C5. Exclusive-mutation gate: `try_modify` on a freshly frozen bag (sole
owner, strong count 1) succeeds and yields the wrapped bag itself — so every
`get` and every `load` result is unchanged — while after a second clone of
the frozen handle (shared strong count 2) `try_modify` yields `none`. -/
theorem exclusive_mutation_gate {K V : Type} (b : ConfigBag K V) :
    (FrozenHandle.freeze b).tryModify = some b ∧
    (∀ k : K, ((FrozenHandle.freeze b).tryModify.map fun m => m.get k)
        = some (b.get k)) ∧
    (∀ (C : Type) (dflt : C) (mg : C → V → C) (k : K),
        ((FrozenHandle.freeze b).tryModify.map fun m => ConfigBag.loadWith dflt mg m k)
          = some (ConfigBag.loadWith dflt mg b k)) ∧
    (FrozenHandle.freeze b).clone.tryModify = none :=
  ⟨rfl, fun _ => rfl, fun _ _ _ _ => rfl, rfl⟩

/-- C6 counterexample: in the set-in-"a", inherit-in-"b", unset-in-"c"
scenario, the provenance trail is not `[Unset("c"), Inherit("b"),
Set("a", 1)]` (the claim's newest-record-first order). -/
theorem provenance_newest_first_counterexample :
    ¬ ((provenanceScenario.sourcedGet ()).2
        = [SourceInfo.unset "c", SourceInfo.inherit "b", SourceInfo.set "a" 1]) := by
  decide

/-- C6 (amended). `sourced_get` recurses into the tail before pushing the
head layer's record, so the trail holds one record per layer in
oldest-layer-first order; in the scenario the trail is
`[Set("a", 1), Inherit("b"), Unset("c")]` and the resolved value is absence
(unset wins). -/
theorem provenance_oldest_first_and_unset_wins :
    (∀ (K V : Type) (b : ConfigBag K V) (k : K),
        (b.sourcedGet k).2 = b.layersOldestFirst.map fun L => layerRecord L k) ∧
    provenanceScenario.sourcedGet ()
      = (none, [SourceInfo.set "a" 1, SourceInfo.inherit "b", SourceInfo.unset "c"]) := by
  refine ⟨fun K V b k => ?_, rfl⟩
  induction b using ConfigBag.inductionOn with
  | baseCase h =>
    simp only [ConfigBag.sourcedGet, ConfigBag.layersOldestFirst, List.map_cons,
      List.map_nil, layerRecord]
    cases h.props k with
    | none => rfl
    | some e => cases e <;> rfl
  | consCase h tb ih =>
    simp only [ConfigBag.sourcedGet, ConfigBag.layersOldestFirst, List.map_append,
      List.map_cons, List.map_nil, layerRecord] at ih ⊢
    cases h.props k with
    | none => dsimp only; rw [ih]
    | some e => cases e <;> (dsimp only; rw [ih])

/-- C7. `store_or_unset(None)` inserts an `ExplicitlyUnset` marker into the
head layer's accumulator slot, so a subsequent `load` (under any merge
policy) receives exactly the tail's contribution and nothing from the head
layer; `store_or_unset(Some(v))` is definitionally `store(v)`. -/
theorem store_or_unset_semantics :
    (∀ (K V : Type) [DecidableEq K] (C : Type) (dflt : C) (mg : C → V → C)
        (b : ConfigBag K V) (k : K),
        ConfigBag.loadWith dflt mg (b.storeOrUnset k none) k
          = match b.tail with
            | none => dflt
            | some t => ConfigBag.loadWith dflt mg t k) ∧
    (∀ (K V : Type) [DecidableEq K] (b : ConfigBag K V) (k : K) (v : V),
        b.storeOrUnset k (some v) = b.store k v) := by
  refine ⟨?_, fun K V _ b k v => rfl⟩
  intro K V inst C dflt mg b k
  cases b with
  | mk h t =>
    cases t with
    | none =>
      simp only [ConfigBag.storeOrUnset, ConfigBag.unsetStore, ConfigBag.putStoreEntry,
        ConfigBag.head, ConfigBag.tail, ConfigBag.loadWith]
      simp
    | some tb =>
      simp only [ConfigBag.storeOrUnset, ConfigBag.unsetStore, ConfigBag.putStoreEntry,
        ConfigBag.head, ConfigBag.tail, ConfigBag.loadWith]
      simp

/-- C8 counterexample: reconstructing the test's `MyConfig` from a bag with
no entry for the required field does not produce a descriptive
"missing required configuration" fault — it hits the generic
`Option::unwrap()` panic. -/
theorem required_field_fault_counterexample :
    MyConfig.loadFrom ConfigBag.base = Except.error rustUnwrapPanicMessage ∧
    rustUnwrapPanicMessage ≠ "missing required configuration" :=
  ⟨rfl, by decide⟩

/-- C8 (amended). Reconstructing `MyConfig` when a required field's point
lookup yields absence fails loudly — the `unwrap` panic, modelled as an
abort outcome distinct from every ordinary return — rather than silently
defaulting or reporting ordinary absence; but the fault is the generic
unwrap panic, not a dedicated "missing required configuration" error kind. -/
theorem required_field_failure_is_loud :
    MyConfig.loadFrom ConfigBag.base = Except.error rustUnwrapPanicMessage ∧
    (∀ c : MyConfig, MyConfig.loadFrom ConfigBag.base ≠ Except.ok (some c)) ∧
    MyConfig.loadFrom ConfigBag.base ≠ Except.ok none := by
  refine ⟨rfl, fun c hc => ?_, fun hc => ?_⟩
  · exact Except.noConfusion hc
  · exact Except.noConfusion hc

/-- C9. Round-trip bridge: persisting a `MyConfig` into a fresh layer over
the base bag (`ConfigBag::base().with(conf)`) and reconstructing it via
`load` yields the original value. -/
theorem round_trip_bridge (c : MyConfig) :
    MyConfig.loadFrom (MyConfig.withConfig ConfigBag.base c) = Except.ok (some c) := by
  cases c with
  | mk a b => rfl

/-- C10. An `ExplicitlyUnset` marker in the head layer's accumulator slot
does not shadow older layers in `load`: the append-policy `load` of the
chain equals the `load` of the frozen tail (every older stored value is
still folded in; the marker only removes the head layer's own
contribution) — unlike point lookup, where an `ExplicitlyUnset` point entry
in the head layer forces absence. -/
theorem unset_marker_not_shadowing {K V : Type} (us : List (Layer K V))
    (h : Layer K V) (tOpt : Option (ConfigBag K V)) (k : K)
    (hm : h.storeProps k = some Value.explicitlyUnset) :
    ConfigBag.loadAppend (ConfigBag.stackLayers us (ConfigBag.mk h tOpt)) k
      = (match tOpt with
         | none => []
         | some t => t.loadAppend k)
        ++ (us.reverse.map fun L => ConfigBag.storedInLayer L k).flatten ∧
    (h.props k = some Value.explicitlyUnset → ∀ t : ConfigBag K V,
      ConfigBag.get (ConfigBag.mk h (some t)) k = none) := by
  have hl : ∀ b : ConfigBag K V,
      (ConfigBag.stackLayers us b).layersOldestFirst
        = b.layersOldestFirst ++ us.reverse := by
    induction us with
    | nil => intro b; simp [ConfigBag.stackLayers]
    | cons u us ih =>
      intro b
      simp only [ConfigBag.stackLayers, List.foldr_cons, List.reverse_cons] at ih ⊢
      rw [ConfigBag.layersOldestFirst, ih b, List.append_assoc]
  constructor
  · rw [loadAppend_eq_allStored]
    unfold ConfigBag.allStoredOldestFirst
    rw [hl, List.map_append, List.flatten_append]
    cases tOpt with
    | none =>
      simp [ConfigBag.layersOldestFirst, ConfigBag.storedInLayer, hm]
    | some t =>
      dsimp only
      rw [loadAppend_eq_allStored]
      unfold ConfigBag.allStoredOldestFirst
      simp [ConfigBag.layersOldestFirst, ConfigBag.storedInLayer, hm]
  · intro hp t
    simp only [ConfigBag.get, ConfigBag.sourcedGet, hp]

/-- C10 witness: a layer carrying `ExplicitlyUnset` markers, sitting between
an older bag that stored "old" and a newer layer that stored "new" — `load`
still returns both the older and the newer layers' values, while point `get`
through the marked layer is absent. -/
theorem unset_marker_not_shadowing_witness :
    ConfigBag.loadAppend
        (ConfigBag.stackLayers [upperLayer] (ConfigBag.mk markedLayer (some olderBag))) ()
      = (match some olderBag with
         | none => ([] : List String)
         | some t => t.loadAppend ())
        ++ (([upperLayer] : List (Layer Unit String)).reverse.map
            fun L => ConfigBag.storedInLayer L ()).flatten ∧
    (markedLayer.props () = some Value.explicitlyUnset → ∀ t : ConfigBag Unit String,
      ConfigBag.get (ConfigBag.mk markedLayer (some t)) () = none) :=
  unset_marker_not_shadowing [upperLayer] markedLayer (some olderBag) () rfl

end ConfigBagModel
